import Mathlib

/-!
Verification development for the DeforMA time-series analysis engine.

The repository contains two near-duplicate implementations of the engine:
`source/processing/ts_analysis.py` and `source/analysis/ts_analysis.py`.
Both are embedded below.  Calendar dates are modelled as integers (ordinal
day numbers, so that subtraction of two dates is the day difference used by
the Python code), and IEEE floating-point values are modelled as exact
rationals, the standard shallow-embedding convention.  Python dicts built in
insertion order are modelled as association lists; `None` is `Option.none`.
-/

/-- Calendar dates as ordinal day numbers (Python `datetime` subtraction
yields exactly the day difference for the whole-day dates used here). -/
abbrev Date := Int

/-- 365.25, the days-per-year constant of both `detrend_M1` variants. -/
def daysPerYear : ℚ := 1461 / 4

/-- 0.6745, the robust z-score scale of both outlier detectors. -/
def zScale : ℚ := 6745 / 10000

/-- 1e-12, the floor substituted for a zero MAD in
`analysis/ts_analysis.py` (`mad = absdev[...] or 1e-12`). -/
def madFloor : ℚ := 1 / 1000000000000

/-- `sorted(...)` of Python on numeric lists (a stable sort by `≤`). -/
def sortQ (l : List ℚ) : List ℚ := l.insertionSort (· ≤ ·)

section ProcessingImpl

/-- Event record as parsed by `_load_events` in
`source/processing/ts_analysis.py`: flag, date, target station (the
station code or the wildcard "ALL"), and N/E/U step magnitudes in mm. -/
structure PEvent where
  flag : String
  date : Date
  station : String
  N : ℚ
  E : ℚ
  U : ℚ
deriving DecidableEq

/-- `_compute_offsets_for_station_date` of `processing/ts_analysis.py`:
starting from `cn = ce = cu = 0.0`, add the magnitudes of every event whose
date is `<= d` and whose station is "ALL" or the given station. -/
def _compute_offsets_for_station_date (evs : List PEvent) (sta : String) (d : Date) :
    ℚ × ℚ × ℚ :=
  evs.foldl
    (fun acc e =>
      if e.date ≤ d ∧ (e.station = "ALL" ∨ e.station = sta) then
        (acc.1 + e.N, acc.2.1 + e.E, acc.2.2 + e.U)
      else acc)
    (0, 0, 0)

/-- `_linreg` of `processing/ts_analysis.py`: OLS slope and intercept from
the closed-form sums; `n < 2` gives `(0, 0)`; a zero denominator gives
slope `0` and intercept `sy / n`.  (Both call sites pass equal-length
lists, so `sxy` is the sum of pointwise products.) -/
def _linreg (x y : List ℚ) : ℚ × ℚ :=
  let n := x.length
  if n < 2 then (0, 0)
  else
    let sx := x.sum
    let sy := y.sum
    let sxx := (x.map (fun v => v * v)).sum
    let sxy := ((x.zip y).map (fun p => p.1 * p.2)).sum
    let den := (n : ℚ) * sxx - sx * sx
    if den = 0 then (0, sy / (n : ℚ))
    else
      let slope := ((n : ℚ) * sxy - sx * sy) / den
      (slope, (sy - slope * sx) / (n : ℚ))

/-- `_detrend_M1` of `processing/ts_analysis.py`: each sample `(d, val)`
becomes `(d, val - vel_mm_yr * ((d - t0) in days / 365.25) + c_mm)`. -/
def _detrend_M1 (rows : List (Date × ℚ)) (vel_mm_yr c_mm : ℚ) (t0 : Date) :
    List (Date × ℚ) :=
  rows.map (fun p =>
    (p.1, p.2 - vel_mm_yr * (((p.1 - t0 : Int) : ℚ) / daysPerYear) + c_mm))

/-- Window membership test of `_detrend_M2` (`wstart <= d <= wend`). -/
def inWindow (wstart wend : Date) (p : Date × ℚ) : Bool :=
  decide (wstart ≤ p.1) && decide (p.1 ≤ wend)

/-- `_detrend_M2` of `processing/ts_analysis.py`: regress within the
reference window, subtract `slope * (d - wstart)` from the entire series,
then subtract the mean of the adjusted in-window values from the entire
series.  Fewer than two in-window samples: the input is returned
unchanged. -/
def _detrend_M2 (rows : List (Date × ℚ)) (wstart wend : Date) : List (Date × ℚ) :=
  if rows = [] then rows
  else
    let win := rows.filter (inWindow wstart wend)
    let x_win := win.map (fun p => ((p.1 - wstart : Int) : ℚ))
    let y_win := win.map (fun p => p.2)
    if x_win.length < 2 then rows
    else
      let slope_day := (_linreg x_win y_win).1
      let adjusted := rows.map (fun p =>
        (p.1, p.2 - slope_day * ((p.1 - wstart : Int) : ℚ)))
      let win_vals := (adjusted.filter (inWindow wstart wend)).map (fun p => p.2)
      if win_vals = [] then adjusted
      else
        let mean_w := win_vals.sum / (win_vals.length : ℚ)
        adjusted.map (fun p => (p.1, p.2 - mean_w))

/-- `_mad` of `processing/ts_analysis.py`: the median (upper-median index
`len // 2` of the sorted list) of absolute deviations from the median. -/
def _mad (vals : List ℚ) : ℚ :=
  if vals = [] then 0
  else
    let med := (sortQ vals).getD (vals.length / 2) 0
    let dev := vals.map (fun v => |v - med|)
    (sortQ dev).getD (dev.length / 2) 0

/-- `_flag_outliers` of `processing/ts_analysis.py`: robust z-score flags;
a zero MAD yields all-zero flags; otherwise flag `1` exactly when
`0.6745 * |v - med| / mad > thresh`.  (There is no minimum-count rule.) -/
def _flag_outliers (series : List (Date × ℚ)) (thresh : ℚ) : List (Date × Nat) :=
  if series = [] then []
  else
    let vals := series.map (fun p => p.2)
    let med := (sortQ vals).getD (vals.length / 2) 0
    let mad := _mad vals
    if mad = 0 then series.map (fun p => (p.1, 0))
    else series.map (fun p =>
      (p.1, if zScale * |p.2 - med| / mad > thresh then 1 else 0))

/-- `StableM1` / `StableM2` of `processing/ts_analysis.py` as a sum type:
velocity variant with N/E/U velocities (mm/yr) and CN/CE/CU constants
(mm), or reference-window variant. -/
inductive PStable where
  | m1 (vN vE vU cN cE cU : ℚ)
  | m2 (start stop : Date)
deriving DecidableEq

/-- The three per-component `(date, value)` series of one (station, frame)
group of `processing/ts_analysis.py` `main` (`comp["N"]`, `comp["E"]`,
`comp["U"]`, already sorted by date). -/
structure Comp where
  N : List (Date × ℚ)
  E : List (Date × ℚ)
  U : List (Date × ℚ)
deriving DecidableEq

/-- Detrend step of `processing/ts_analysis.py` `main` for one group:
M1 applied per component with `t0` the component's first sample date;
M2 applied per component with the configured window; no configuration
leaves all three maps empty (so every lookup yields the null marker). -/
def procDetrendMaps (conf : Option PStable) (comp : Comp) :
    List (Date × ℚ) × List (Date × ℚ) × List (Date × ℚ) :=
  match conf with
  | some (PStable.m1 vN vE vU cN cE cU) =>
      (match comp.N with
        | [] => []
        | p :: _ => _detrend_M1 comp.N vN cN p.1,
       match comp.E with
        | [] => []
        | p :: _ => _detrend_M1 comp.E vE cE p.1,
       match comp.U with
        | [] => []
        | p :: _ => _detrend_M1 comp.U vU cU p.1)
  | some (PStable.m2 ds de2) =>
      (_detrend_M2 comp.N ds de2, _detrend_M2 comp.E ds de2, _detrend_M2 comp.U ds de2)
  | none => ([], [], [])

/-- The N-series that `processing/ts_analysis.py` `main` feeds to
`_flag_outliers` (line `on_map = _flag_outliers(comp["N"], ...)`): the raw
component series; the detrend map is not consulted. -/
def procOutlierInputN (comp : Comp) (_dn_map : Date → Option ℚ) : List (Date × ℚ) :=
  comp.N

end ProcessingImpl

section AnalysisImpl

/-- One `time_series` row of `analysis/ts_analysis.py`, restricted to the
fields the analysis functions read: date (`r[1]`) and the nullable N/E/U
values (`r[6..8]`). -/
structure ARow where
  date : Date
  n : Option ℚ
  e : Option ℚ
  u : Option ℚ
deriving DecidableEq

/-- `EventItem` of `analysis/ts_analysis.py` (events are grouped by the
station key of `events.yaml`, so the record itself carries no target). -/
structure EventItem where
  flag : String
  date : Date
  N : ℚ
  E : ℚ
  U : ℚ
deriving DecidableEq

/-- `StableEntry` of `analysis/ts_analysis.py`. -/
structure StableEntry where
  method : String
  N : ℚ := 0
  E : ℚ := 0
  U : ℚ := 0
  CN : ℚ := 0
  CE : ℚ := 0
  CU : ℚ := 0
  ref_start : Option Date := none
  ref_end : Option Date := none
deriving DecidableEq

/-- Flag filter of `apply_offsets`: `allowed = {'E','R'} | ({'D'} if
include_D else set())`. -/
def allowedFlag (include_D : Bool) (f : String) : Bool :=
  f == "E" || f == "R" || (include_D && f == "D")

/-- The cursor sweep of `apply_offsets`: for each row date, consume every
not-yet-applied event dated `<= date` (the event list is sorted by date),
adding its magnitudes divided by 1000 to the running totals. -/
def offsetsSweep (evs : List EventItem) (dates : List Date) (cum : ℚ × ℚ × ℚ) :
    List (Date × (ℚ × ℚ × ℚ)) :=
  match dates with
  | [] => []
  | d :: rest =>
      let fired := evs.takeWhile (fun ev => decide (ev.date ≤ d))
      let remaining := evs.dropWhile (fun ev => decide (ev.date ≤ d))
      let cum2 := (cum.1 + (fired.map (fun ev => ev.N / 1000)).sum,
                   cum.2.1 + (fired.map (fun ev => ev.E / 1000)).sum,
                   cum.2.2 + (fired.map (fun ev => ev.U / 1000)).sum)
      (d, cum2) :: offsetsSweep remaining rest cum2

/-- `apply_offsets` of `analysis/ts_analysis.py` for one
`(station, frame)` group: the event list is looked up under the
station's own key (`events_map.get(sta, [])`), filtered by flag, and
swept over the group's dates. -/
def apply_offsets (sta : String) (rows : List ARow)
    (events_map : List (String × List EventItem)) (include_D : Bool) :
    List (Date × (ℚ × ℚ × ℚ)) :=
  let evs := ((events_map.lookup sta).getD []).filter (fun ev => allowedFlag include_D ev.flag)
  offsetsSweep evs (rows.map (fun r => r.date)) (0, 0, 0)

/-- `detrend_M1` of `analysis/ts_analysis.py`: velocities and constants
are divided by 1000 (mm to m); rows with any null component map to an
all-null triple; otherwise each component becomes
`x - (v * years + c)` with `years = (d - t0) in days / 365.25` and
`t0` the first row's date. -/
def detrend_M1 (rows : List ARow) (stab : StableEntry) :
    List (Date × (Option ℚ × Option ℚ × Option ℚ)) :=
  match rows with
  | [] => []
  | r0 :: _ =>
      let t0 := r0.date
      let vN := stab.N / 1000
      let vE := stab.E / 1000
      let vU := stab.U / 1000
      let cN := stab.CN / 1000
      let cE := stab.CE / 1000
      let cU := stab.CU / 1000
      rows.map (fun r =>
        match r.n, r.e, r.u with
        | some n, some e, some u =>
            let years := ((r.date - t0 : Int) : ℚ) / daysPerYear
            (r.date, (some (n - (vN * years + cN)),
                      some (e - (vE * years + cE)),
                      some (u - (vU * years + cU))))
        | _, _, _ => (r.date, (none, none, none)))

/-- The complete epochs kept by `detrend_M2` of `analysis/ts_analysis.py`
(rows whose N, E and U are all non-null; the others are skipped by
`continue`). -/
def completeRows (rows : List ARow) : List ARow :=
  rows.filter (fun r => r.n.isSome && r.e.isSome && r.u.isSome)

/-- One regression point of `detrend_M2` of `analysis/ts_analysis.py`:
days since the first row (`t`), the three values, and the date. -/
structure M2Point where
  t : ℚ
  n : ℚ
  e : ℚ
  u : ℚ
  d : Date
deriving DecidableEq

/-- The in-window points of `detrend_M2` of `analysis/ts_analysis.py`
(the positions `idxs`; sums over `idxs` equal sums over this filtered
list).  With either window bound missing all points are used. -/
def m2sel (pts : List M2Point) (ref_start ref_end : Option Date) : List M2Point :=
  match ref_start, ref_end with
  | some ds, some de2 => pts.filter (fun p => decide (ds ≤ p.d) && decide (p.d ≤ de2))
  | _, _ => pts

/-- The inner `slope` of `detrend_M2` of `analysis/ts_analysis.py`, with
the sums over `idxs` written as sums over the selected points. -/
def m2slope (sel : List M2Point) (proj : M2Point → ℚ) : ℚ :=
  let n := (sel.length : ℚ)
  let sx := (sel.map (fun p => p.t)).sum
  let sy := (sel.map proj).sum
  let sxx := (sel.map (fun p => p.t * p.t)).sum
  let sxy := (sel.map (fun p => p.t * proj p)).sum
  let den := n * sxx - sx * sx
  if den = 0 then 0 else (n * sxy - sx * sy) / den

/-- `detrend_M2` of `analysis/ts_analysis.py`: fewer than 3 complete
epochs maps every row date to an all-null triple; fewer than 2 selected
window points maps every complete date to an all-null triple; otherwise
each complete epoch gets `value - slope * (t - t_ref)` per component,
with `t_ref` the mean regression time of the selected points.  Null
epochs are absent from the two non-degenerate outputs. -/
def detrend_M2 (rows : List ARow) (ref_start ref_end : Option Date) :
    List (Date × (Option ℚ × Option ℚ × Option ℚ)) :=
  match rows with
  | [] => []
  | r0 :: _ =>
      let t0 := r0.date
      let pts := (completeRows rows).map (fun r =>
        { t := ((r.date - t0 : Int) : ℚ)
          n := r.n.getD 0
          e := r.e.getD 0
          u := r.u.getD 0
          d := r.date : M2Point })
      if pts.length < 3 then rows.map (fun r => (r.date, (none, none, none)))
      else
        let sel := m2sel pts ref_start ref_end
        if sel.length < 2 then pts.map (fun p => (p.d, (none, none, none)))
        else
          let sN := m2slope sel (fun p => p.n)
          let sE := m2slope sel (fun p => p.e)
          let sU := m2slope sel (fun p => p.u)
          let t_ref := (sel.map (fun p => p.t)).sum / (sel.length : ℚ)
          pts.map (fun p =>
            (p.d, (some (p.n - sN * (p.t - t_ref)),
                   some (p.e - sE * (p.t - t_ref)),
                   some (p.u - sU * (p.t - t_ref)))))

/-- `detect_outliers_mad` of `analysis/ts_analysis.py` (the inner `_mad`
of its `main` is the same code with `thr = 3.5`): fewer than 5 non-null
values flags everything 0; the median and MAD use the upper-median index
of the sorted lists; a zero MAD is replaced by `1e-12`; null entries are
flagged 0; otherwise flag 1 exactly when
`|0.6745 * (v - med) / mad| > thr`. -/
def detect_outliers_mad (series : List (Date × Option ℚ)) (thr : ℚ) :
    List (Date × Nat) :=
  let vals := series.filterMap (fun p => p.2)
  if vals.length < 5 then series.map (fun p => (p.1, 0))
  else
    let med := (sortQ vals).getD (vals.length / 2) 0
    let absdev := sortQ (vals.map (fun v => |v - med|))
    let mad0 := absdev.getD (vals.length / 2) 0
    let mad := if mad0 = 0 then madFloor else mad0
    series.map (fun p =>
      match p.2 with
      | none => (p.1, 0)
      | some v => (p.1, if |zScale * (v - med) / mad| > thr then 1 else 0))

/-- Detrend step of `analysis/ts_analysis.py` `main` for one
`(station, frame)` group: a station absent from `stable.yaml` gets an
all-null triple for every date; otherwise M2 or M1 is dispatched on the
configured method. -/
def detrendDispatch (stable_map : List (String × StableEntry)) (sta : String)
    (srows : List ARow) : List (Date × (Option ℚ × Option ℚ × Option ℚ)) :=
  match stable_map.lookup sta with
  | none => srows.map (fun r => (r.date, (none, none, none)))
  | some stab =>
      if stab.method = "M2" then detrend_M2 srows stab.ref_start stab.ref_end
      else detrend_M1 srows stab

/-- The three detection input series built by `analysis/ts_analysis.py`
`main` before calling its `_mad` (`n = dn if dn is not None else r[6]`,
and likewise for E and U); `dmap` is the group's detrend lookup with
default `(None, None, None)`. -/
def buildDetectionSeries (srows : List ARow)
    (dmap : Date → (Option ℚ × Option ℚ × Option ℚ)) :
    List (Date × Option ℚ) × List (Date × Option ℚ) × List (Date × Option ℚ) :=
  (srows.map (fun r =>
     (r.date, match (dmap r.date).1 with
              | some v => some v
              | none => r.n)),
   srows.map (fun r =>
     (r.date, match (dmap r.date).2.1 with
              | some v => some v
              | none => r.e)),
   srows.map (fun r =>
     (r.date, match (dmap r.date).2.2 with
              | some v => some v
              | none => r.u)))

end AnalysisImpl

section SpecModel

/-- Modelled from the spec: the outlier-detection input precedence of
section 4.3 — "detrended preferred when available, else raw". -/
def specDetectionInput (detr raw : Option ℚ) : Option ℚ :=
  match detr with
  | some v => some v
  | none => raw

/-- Modelled from the spec: a raw component series rewritten to the
detrended-preferred detection input of section 4.3. -/
def specPreferredSeries (series : List (Date × ℚ)) (dmap : Date → Option ℚ) :
    List (Date × ℚ) :=
  series.map (fun p =>
    (p.1, match dmap p.1 with
          | some v => v
          | none => p.2))

end SpecModel

section HelperLemmas

/-- Unrolling of the `_compute_offsets_for_station_date` fold: each output
component is the sum of the magnitudes of the applicable events. -/
theorem compute_offsets_eq_sum (evs : List PEvent) (sta : String) (d : Date) :
    _compute_offsets_for_station_date evs sta d =
      ((evs.map (fun e => if e.date ≤ d ∧ (e.station = "ALL" ∨ e.station = sta) then e.N else 0)).sum,
       (evs.map (fun e => if e.date ≤ d ∧ (e.station = "ALL" ∨ e.station = sta) then e.E else 0)).sum,
       (evs.map (fun e => if e.date ≤ d ∧ (e.station = "ALL" ∨ e.station = sta) then e.U else 0)).sum) := by
  suffices h : ∀ acc : ℚ × ℚ × ℚ,
      evs.foldl
        (fun acc e =>
          if e.date ≤ d ∧ (e.station = "ALL" ∨ e.station = sta) then
            (acc.1 + e.N, acc.2.1 + e.E, acc.2.2 + e.U)
          else acc) acc =
        (acc.1 + (evs.map (fun e => if e.date ≤ d ∧ (e.station = "ALL" ∨ e.station = sta) then e.N else 0)).sum,
         acc.2.1 + (evs.map (fun e => if e.date ≤ d ∧ (e.station = "ALL" ∨ e.station = sta) then e.E else 0)).sum,
         acc.2.2 + (evs.map (fun e => if e.date ≤ d ∧ (e.station = "ALL" ∨ e.station = sta) then e.U else 0)).sum) by
    have := h (0, 0, 0)
    simpa [_compute_offsets_for_station_date] using this
  induction evs with
  | nil => intro acc; simp
  | cons e rest ih =>
      intro acc
      by_cases hc : e.date ≤ d ∧ (e.station = "ALL" ∨ e.station = sta)
      · simp only [List.foldl_cons, List.map_cons, List.sum_cons, if_pos hc, ih]
        refine Prod.ext ?_ (Prod.ext ?_ ?_) <;> simp <;> ring
      · simp only [List.foldl_cons, List.map_cons, List.sum_cons, if_neg hc, ih]
        refine Prod.ext ?_ (Prod.ext ?_ ?_) <;> simp

/-- Filtering on the window commutes with a value-only rewrite of the
samples, because `inWindow` reads only the date. -/
theorem filter_fst_preserving (rows2 : List (Date × ℚ)) (ws we : Date) (f : Date × ℚ → ℚ) :
    (rows2.map (fun p => (p.1, f p))).filter (inWindow ws we)
      = (rows2.filter (inWindow ws we)).map (fun p => (p.1, f p)) := by
  rw [List.filter_map]
  congr 1

/-- Subtracting a constant from every value of a series shifts its sum by
the length times the constant. -/
theorem sum_map_snd_sub_const (l : List (Date × ℚ)) (m : ℚ) :
    (l.map (fun p => p.2 - m)).sum = (l.map (fun p => p.2)).sum - (l.length : ℚ) * m := by
  induction l with
  | nil => simp
  | cons a t ih =>
      simp only [List.map_cons, List.sum_cons, ih, List.length_cons]
      push_cast
      ring

end HelperLemmas

section Claims

/-- C1 counterexample: in `apply_offsets` of `analysis/ts_analysis.py` the
event list is looked up under the station's own key only, so an event whose
target is the wildcard "ALL" (stored under key "ALL" by `load_events`) never
applies to station "PDEL": with dates 0..5 standing for 2020-01-01..06 and
one N=10 event dated 4 (2020-01-05) targeted "ALL", the cumulative north
correction at date 4 is 0, not 10 as the claim states. -/
theorem C1_wildcard_counterexample :
    (apply_offsets ("PDEL") ([⟨0, some 0, some 0, some 0⟩, ⟨1, some 0, some 0, some 0⟩,
        ⟨2, some 0, some 0, some 0⟩, ⟨3, some 0, some 0, some 0⟩,
        ⟨4, some 0, some 0, some 0⟩, ⟨5, some 0, some 0, some 0⟩])
      ([("ALL", [⟨"E", 4, 10, 0, 0⟩])]) false).lookup (4 : Date) = some (0, 0, 0) ∧
    ¬ ((apply_offsets ("PDEL") ([⟨0, some 0, some 0, some 0⟩, ⟨1, some 0, some 0, some 0⟩,
        ⟨2, some 0, some 0, some 0⟩, ⟨3, some 0, some 0, some 0⟩,
        ⟨4, some 0, some 0, some 0⟩, ⟨5, some 0, some 0, some 0⟩])
      ([("ALL", [⟨"E", 4, 10, 0, 0⟩])]) false).lookup (4 : Date) = some (10, 0, 0)) := by
  have h : (apply_offsets ("PDEL") ([⟨0, some 0, some 0, some 0⟩, ⟨1, some 0, some 0, some 0⟩,
        ⟨2, some 0, some 0, some 0⟩, ⟨3, some 0, some 0, some 0⟩,
        ⟨4, some 0, some 0, some 0⟩, ⟨5, some 0, some 0, some 0⟩])
      ([("ALL", [⟨"E", 4, 10, 0, 0⟩])]) false).lookup (4 : Date) = some (0, 0, 0) := by
    simp [apply_offsets, offsetsSweep, allowedFlag, List.lookup]
  refine ⟨h, fun hc => ?_⟩
  rw [h] at hc
  simp only [Option.some.injEq, Prod.mk.injEq] at hc
  exact absurd hc.1 (by norm_num)

/-- C1 (amended): in `_compute_offsets_for_station_date` of
`processing/ts_analysis.py`, cn/ce/cu at a date equal the sum of the
magnitudes of all events at or before that date whose target matches the
station or the wildcard "ALL"; in particular, for the Scenario A event list
(one N=10 event dated 4, i.e. 2020-01-05, target "ALL") the north
correction for "PDEL" is 0 strictly before date 4 and 10 at or after it.
The `analysis/ts_analysis.py` near-duplicate instead applies only the
events stored under the station's own key, scaled by 1/1000. -/
theorem C1_offsets_amended :
    (∀ (evs : List PEvent) (sta : String) (d : Date),
        _compute_offsets_for_station_date evs sta d =
          ((evs.map (fun e => if e.date ≤ d ∧ (e.station = "ALL" ∨ e.station = sta) then e.N else 0)).sum,
           (evs.map (fun e => if e.date ≤ d ∧ (e.station = "ALL" ∨ e.station = sta) then e.E else 0)).sum,
           (evs.map (fun e => if e.date ≤ d ∧ (e.station = "ALL" ∨ e.station = sta) then e.U else 0)).sum)) ∧
    (∀ d : Date,
        (d < 4 →
          (_compute_offsets_for_station_date ([⟨"earthquake", 4, "ALL", 10, 0, 0⟩]) ("PDEL") d).1 = 0) ∧
        (4 ≤ d →
          (_compute_offsets_for_station_date ([⟨"earthquake", 4, "ALL", 10, 0, 0⟩]) ("PDEL") d).1 = 10)) := by
  refine ⟨compute_offsets_eq_sum, fun d => ⟨fun hd => ?_, fun hd => ?_⟩⟩
  · rw [compute_offsets_eq_sum]
    simp [not_le.2 hd]
  · rw [compute_offsets_eq_sum]
    simp [hd]

/-- C1 witness: the Scenario A instance of `C1_offsets_amended` at the
concrete dates 2 (before the event) and 7 (after it). -/
theorem C1_offsets_witness :
    (_compute_offsets_for_station_date ([⟨"earthquake", 4, "ALL", 10, 0, 0⟩]) ("PDEL") 2).1 = 0 ∧
    (_compute_offsets_for_station_date ([⟨"earthquake", 4, "ALL", 10, 0, 0⟩]) ("PDEL") 7).1 = 10 :=
  ⟨(C1_offsets_amended.2 2).1 (by norm_num), (C1_offsets_amended.2 7).2 (by norm_num)⟩

/-- C2 counterexample: `detrend_M1` of `analysis/ts_analysis.py` computes
`x - (v * years + c)`, i.e. it subtracts the constant correction instead of
adding it (besides scaling mm to m): one sample of value 5 at the first
epoch, with zero velocities and CN=CE=CU=2000 mm (c = 2 after the /1000
scaling), yields 3, not `raw + constant` = 7. -/
theorem C2_constant_sign_counterexample :
    detrend_M1 ([⟨0, some 5, some 5, some 5⟩])
        ({ method := "M1", CN := 2000, CE := 2000, CU := 2000 })
      = [(0, (some 3, some 3, some 3))] ∧
    ¬ (detrend_M1 ([⟨0, some 5, some 5, some 5⟩])
        ({ method := "M1", CN := 2000, CE := 2000, CU := 2000 })
      = [(0, (some 7, some 7, some 7))]) := by
  have h : detrend_M1 ([⟨0, some 5, some 5, some 5⟩])
      ({ method := "M1", CN := 2000, CE := 2000, CU := 2000 })
      = [(0, (some 3, some 3, some 3))] := by
    norm_num [detrend_M1, daysPerYear]
  refine ⟨h, fun hc => ?_⟩
  rw [h] at hc
  simp only [List.cons.injEq, Prod.mk.injEq, Option.some.injEq] at hc
  exact absurd hc.1.2.1 (by norm_num)

/-- C2 (amended): in `_detrend_M1` of `processing/ts_analysis.py` every
sample at date t with raw value x becomes
`x - velocity * ((t - t0) in days / 365.25) + constant`, and at the first
sample date t0 (as passed by `main`, the head of the sorted component
series) the detrended value equals `raw(t0) + constant`.  The
`analysis/ts_analysis.py` near-duplicate subtracts the constant instead. -/
theorem C2_detrend_M1_amended :
    (∀ (rows : List (Date × ℚ)) (v c : ℚ) (t0 : Date) (i : ℕ), i < rows.length →
        (_detrend_M1 rows v c t0).getD i (0, 0) =
          ((rows.getD i (0, 0)).1,
           (rows.getD i (0, 0)).2 - v * (((rows.getD i (0, 0)).1 - t0 : Int) : ℚ) / daysPerYear + c)) ∧
    (∀ (t0 : Date) (x : ℚ) (rest : List (Date × ℚ)) (v c : ℚ),
        (_detrend_M1 ((t0, x) :: rest) v c t0).headD (0, 0) = (t0, x + c)) := by
  constructor
  · intro rows v c t0 i hi
    have hi' : i < (_detrend_M1 rows v c t0).length := by
      simpa [_detrend_M1] using hi
    rw [List.getD_eq_getElem _ _ hi', List.getD_eq_getElem _ _ hi]
    simp [_detrend_M1]
    ring
  · intro t0 x rest v c
    simp [_detrend_M1]

/-- C2 witness: `C2_detrend_M1_amended` applied to the one-sample series
(date 3, value 5) with velocity 2, constant 7 and t0 = 1. -/
theorem C2_detrend_M1_witness :
    (_detrend_M1 ([((3:Date), (5:ℚ))]) 2 7 1).getD 0 (0, 0) =
      ((([((3:Date), (5:ℚ))]).getD 0 (0, 0)).1,
       (([((3:Date), (5:ℚ))]).getD 0 (0, 0)).2 -
         2 * ((((([((3:Date), (5:ℚ))]).getD 0 (0, 0)).1 - 1 : Int) : ℚ)) / daysPerYear + 7) :=
  C2_detrend_M1_amended.1 ([((3:Date), (5:ℚ))]) 2 7 1 0 (by norm_num)

/-- C3 counterexample: `detrend_M2` of `analysis/ts_analysis.py` does not
pass the input through when the reference window holds fewer than 2
samples — it returns an all-null triple for every complete date: three
complete epochs at dates 0..2 with a window [10, 11] containing none of
them yield nulls, not the unchanged input values. -/
theorem C3_passthrough_counterexample :
    detrend_M2 ([⟨0, some 1, some 1, some 1⟩, ⟨1, some 2, some 2, some 2⟩, ⟨2, some 3, some 3, some 3⟩])
        (some 10) (some 11)
      = [(0, (none, none, none)), (1, (none, none, none)), (2, (none, none, none))] ∧
    ¬ (detrend_M2 ([⟨0, some 1, some 1, some 1⟩, ⟨1, some 2, some 2, some 2⟩, ⟨2, some 3, some 3, some 3⟩])
        (some 10) (some 11)
      = ([⟨0, some 1, some 1, some 1⟩, ⟨1, some 2, some 2, some 2⟩,
          ⟨2, some 3, some 3, some 3⟩] : List ARow).map (fun r => (r.date, (r.n, r.e, r.u)))) := by
  have h : detrend_M2 ([⟨0, some 1, some 1, some 1⟩, ⟨1, some 2, some 2, some 2⟩, ⟨2, some 3, some 3, some 3⟩])
      (some 10) (some 11)
      = [(0, (none, none, none)), (1, (none, none, none)), (2, (none, none, none))] := by
    norm_num [detrend_M2, completeRows, m2sel]
  refine ⟨h, fun hc => ?_⟩
  rw [h] at hc
  simp at hc

/-- C3 (amended): `_detrend_M2` of `processing/ts_analysis.py` returns its
input unchanged (value-identical) whenever the reference window
[wstart, wend] contains fewer than 2 samples.  The
`analysis/ts_analysis.py` near-duplicate instead returns all-null
detrended values in that case. -/
theorem C3_passthrough_amended :
    ∀ (rows : List (Date × ℚ)) (wstart wend : Date),
      (rows.filter (inWindow wstart wend)).length < 2 →
      _detrend_M2 rows wstart wend = rows := by
  intro rows ws we h
  by_cases h0 : rows = []
  · subst h0; simp [_detrend_M2]
  · rw [_detrend_M2, if_neg h0]
    simp only [List.length_map]
    rw [if_pos h]

/-- C3 witness: `C3_passthrough_amended` on a one-sample series whose date
lies outside the window [5, 6]. -/
theorem C3_passthrough_witness :
    (([((0:Date), (1:ℚ))]).filter (inWindow 5 6)).length < 2 ∧
    _detrend_M2 ([((0:Date), (1:ℚ))]) 5 6 = [((0:Date), (1:ℚ))] :=
  ⟨by norm_num [inWindow], C3_passthrough_amended _ 5 6 (by norm_num [inWindow])⟩

/-- C4 counterexample: in `detect_outliers_mad` of `analysis/ts_analysis.py`
(the inner `_mad` of its `main` is the same code with thr = 3.5), a zero
MAD does not force all flags to 0: the MAD is replaced by 1e-12, so the
five-value series 0,0,0,0,100 — whose MAD is 0 — still gets flag 1 at the
value 100, contradicting the claim that MAD = 0 yields all-zero flags. -/
theorem C4_mad_zero_counterexample :
    _mad [0, 0, 0, 0, 100] = 0 ∧
    detect_outliers_mad ([((0:Date), some 0), (1, some 0), (2, some 0), (3, some 0), (4, some 100)]) (7/2)
      = [((0:Date), 0), (1, 0), (2, 0), (3, 0), (4, 1)] ∧
    ((4:Date), 1) ∈ detect_outliers_mad
      ([((0:Date), some 0), (1, some 0), (2, some 0), (3, some 0), (4, some 100)]) (7/2) := by
  have h : detect_outliers_mad
      ([((0:Date), some 0), (1, some 0), (2, some 0), (3, some 0), (4, some 100)]) (7/2)
      = [((0:Date), 0), (1, 0), (2, 0), (3, 0), (4, 1)] := by
    norm_num [detect_outliers_mad, sortQ, madFloor, zScale, List.filterMap_cons]
  refine ⟨by norm_num [_mad, sortQ], h, ?_⟩
  rw [h]
  simp

/-- C4 (amended): the two outlier guards are split across the two
implementations.  In `detect_outliers_mad` of `analysis/ts_analysis.py`,
fewer than 5 non-null values yields all-zero flags, and a constant series
(every non-null value equal) yields all-zero flags for any non-negative
threshold; in `_flag_outliers` of `processing/ts_analysis.py`, a zero MAD
yields all-zero flags (there is no minimum-count rule there, and the
analysis variant replaces a zero MAD by 1e-12 instead of zeroing). -/
theorem C4_outlier_guards_amended :
    (∀ (series : List (Date × Option ℚ)) (thr : ℚ),
        (series.filterMap (fun p => p.2)).length < 5 →
        detect_outliers_mad series thr = series.map (fun p => (p.1, 0))) ∧
    (∀ (series : List (Date × Option ℚ)) (thr c : ℚ), 0 ≤ thr →
        (∀ p ∈ series, ∀ v : ℚ, p.2 = some v → v = c) →
        detect_outliers_mad series thr = series.map (fun p => (p.1, 0))) ∧
    (∀ (series : List (Date × ℚ)) (thresh : ℚ),
        _mad (series.map (fun p => p.2)) = 0 →
        _flag_outliers series thresh = series.map (fun p => (p.1, 0))) := by
  refine ⟨fun series thr h5 => ?_, fun series thr c hthr hconst => ?_, fun series thresh hmad => ?_⟩
  · simp only [detect_outliers_mad]
    rw [if_pos h5]
  · simp only [detect_outliers_mad]
    by_cases h5 : (series.filterMap (fun p => p.2)).length < 5
    · rw [if_pos h5]
    · rw [if_neg h5]
      have hlen0 : 0 < (series.filterMap (fun p => p.2)).length := by omega
      have hidx : (series.filterMap (fun p => p.2)).length / 2 <
          (sortQ (series.filterMap (fun p => p.2))).length := by
        rw [sortQ, List.length_insertionSort]
        exact Nat.div_lt_self hlen0 one_lt_two
      have hmed : (sortQ (series.filterMap (fun p => p.2))).getD
          ((series.filterMap (fun p => p.2)).length / 2) 0 = c := by
        rw [List.getD_eq_getElem _ _ hidx]
        have hmem : (sortQ (series.filterMap (fun p => p.2))).get
              ⟨(series.filterMap (fun p => p.2)).length / 2, hidx⟩ ∈
            sortQ (series.filterMap (fun p => p.2)) := List.get_mem _ _ _
        have hmem2 : (sortQ (series.filterMap (fun p => p.2))).get
              ⟨(series.filterMap (fun p => p.2)).length / 2, hidx⟩ ∈
            series.filterMap (fun p => p.2) :=
          ((List.perm_insertionSort _ _).mem_iff).1 hmem
        obtain ⟨q, hq, hq2⟩ := List.mem_filterMap.1 hmem2
        simpa using (hconst q hq _ hq2).symm ▸ rfl
      rw [hmed]
      refine List.map_congr_left fun p hp => ?_
      match hpv : p.2 with
      | none => rfl
      | some v =>
          have hv : v = c := hconst p hp v hpv
          subst hv
          simp [not_lt.2 hthr]
  · by_cases h0 : series = []
    · subst h0; simp [_flag_outliers]
    · simp only [_flag_outliers]
      rw [if_neg h0, if_pos hmad]

/-- C4 witness: the three guards of `C4_outlier_guards_amended` at concrete
inputs — a short series, a constant five-value series, and a constant
two-value series for the processing variant. -/
theorem C4_outlier_guards_witness :
    detect_outliers_mad ([((0:Date), some (1:ℚ))]) 0 = [((0:Date), 0)] ∧
    detect_outliers_mad ([((0:Date), some (3:ℚ)), (1, some 3), (2, some 3), (3, some 3), (4, some 3)]) 1
      = [((0:Date), 0), (1, 0), (2, 0), (3, 0), (4, 0)] ∧
    _flag_outliers ([((0:Date), (5:ℚ)), (1, 5)]) 1 = [((0:Date), 0), (1, 0)] := by
  refine ⟨?_, ?_, ?_⟩
  · have := C4_outlier_guards_amended.1 ([((0:Date), some (1:ℚ))]) 0 (by norm_num [List.filterMap_cons])
    simpa using this
  · have := C4_outlier_guards_amended.2.1
      ([((0:Date), some (3:ℚ)), (1, some 3), (2, some 3), (3, some 3), (4, some 3)]) 1 3
      (by norm_num)
      (by
        intro p hp v hv
        simp only [List.mem_cons, List.not_mem_nil, or_false] at hp
        rcases hp with rfl | rfl | rfl | rfl | rfl <;>
          · simp only [Option.some.injEq] at hv
            exact hv.symm)
    simpa using this
  · have := C4_outlier_guards_amended.2.2 ([((0:Date), (5:ℚ)), (1, 5)]) 1 (by norm_num [_mad, sortQ])
    simpa using this

/-- C5 counterexample: `main` of `processing/ts_analysis.py` feeds the raw
component series to `_flag_outliers` (line `on_map =
_flag_outliers(comp["N"], ...)`) and never consults the detrend map: with
raw N values 0..5 and detrended values available at every date (equal to
the raw value except 200 at date 5), the code's flag at date 5 is 0 while
the detrended-preferred input mandated by the claim gives flag 1. -/
theorem C5_raw_input_counterexample :
    (_flag_outliers (procOutlierInputN
        ({ N := [(0, 0), (1, 1), (2, 2), (3, 3), (4, 4), (5, 5)], E := [], U := [] })
        (fun d => if d = 5 then some 200 else some (d : ℚ))) 4).lookup (5 : Date) = some 0 ∧
    (_flag_outliers (specPreferredSeries ([(0, 0), (1, 1), (2, 2), (3, 3), (4, 4), (5, 5)])
        (fun d => if d = 5 then some 200 else some (d : ℚ))) 4).lookup (5 : Date) = some 1 := by
  constructor
  · have h : _flag_outliers (procOutlierInputN
        ({ N := [(0, 0), (1, 1), (2, 2), (3, 3), (4, 4), (5, 5)], E := [], U := [] })
        (fun d => if d = 5 then some 200 else some (d : ℚ))) 4
        = [((0:Date), 0), (1, 0), (2, 0), (3, 0), (4, 0), (5, 0)] := by
      norm_num [_flag_outliers, procOutlierInputN, _mad, sortQ, zScale, List.cons_ne_nil]
    rw [h]
    simp [List.lookup]
  · have h : _flag_outliers (specPreferredSeries ([(0, 0), (1, 1), (2, 2), (3, 3), (4, 4), (5, 5)])
        (fun d => if d = 5 then some 200 else some (d : ℚ))) 4
        = [((0:Date), 0), (1, 0), (2, 0), (3, 0), (4, 0), (5, 1)] := by
      norm_num [_flag_outliers, specPreferredSeries, _mad, sortQ, zScale, List.cons_ne_nil]
    rw [h]
    simp [List.lookup]

/-- C5 (amended): the detrended-preferred precedence holds only in
`analysis/ts_analysis.py`: the three detection series its `main` builds
are exactly the raw series rewritten per component, independently, to the
detrended value when it is non-null and the raw value otherwise (the
spec's section 4.3 precedence); `processing/ts_analysis.py` always feeds
raw values. -/
theorem C5_precedence_amended :
    ∀ (srows : List ARow) (dmap : Date → (Option ℚ × Option ℚ × Option ℚ)),
      buildDetectionSeries srows dmap =
        (srows.map (fun r => (r.date, specDetectionInput (dmap r.date).1 r.n)),
         srows.map (fun r => (r.date, specDetectionInput (dmap r.date).2.1 r.e)),
         srows.map (fun r => (r.date, specDetectionInput (dmap r.date).2.2 r.u))) := by
  intro srows dmap
  rfl

/-- C6 counterexample: `detrend_M2` of `analysis/ts_analysis.py` pivots the
slope around the mean regression time but never subtracts the window mean
of the adjusted values: three complete epochs of constant value 5 with the
window covering all of them come out unchanged, so the mean of the output
values restricted to the window is 5, not ≈ 0. -/
theorem C6_recentering_counterexample :
    detrend_M2 ([⟨0, some 5, some 5, some 5⟩, ⟨1, some 5, some 5, some 5⟩, ⟨2, some 5, some 5, some 5⟩])
        (some 0) (some 2)
      = [(0, (some 5, some 5, some 5)), (1, (some 5, some 5, some 5)), (2, (some 5, some 5, some 5))] ∧
    ((detrend_M2 ([⟨0, some 5, some 5, some 5⟩, ⟨1, some 5, some 5, some 5⟩, ⟨2, some 5, some 5, some 5⟩])
        (some 0) (some 2)).filterMap (fun p => p.2.1)).sum / 3 = 5 ∧
    ((5:ℚ) ≠ 0) := by
  have h : detrend_M2 ([⟨0, some 5, some 5, some 5⟩, ⟨1, some 5, some 5, some 5⟩, ⟨2, some 5, some 5, some 5⟩])
      (some 0) (some 2)
      = [(0, (some 5, some 5, some 5)), (1, (some 5, some 5, some 5)), (2, (some 5, some 5, some 5))] := by
    norm_num [detrend_M2, completeRows, m2sel, m2slope]
  refine ⟨h, ?_, by norm_num⟩
  rw [h]
  norm_num [List.filterMap_cons]

/-- C6 (amended): in `_detrend_M2` of `processing/ts_analysis.py`, whenever
the reference window contains at least 2 samples, the mean of the adjusted
in-window values is subtracted from the entire series, so the sum (hence
the mean) of the output values restricted to the window is exactly 0 in
exact arithmetic.  The `analysis/ts_analysis.py` near-duplicate performs
no such recentering and keeps the window's raw mean. -/
theorem C6_recentering_amended :
    ∀ (rows : List (Date × ℚ)) (wstart wend : Date),
      2 ≤ (rows.filter (inWindow wstart wend)).length →
      (((_detrend_M2 rows wstart wend).filter (inWindow wstart wend)).map (fun p => p.2)).sum = 0 := by
  intro rows ws we h2
  have h0 : rows ≠ [] := by
    intro h; subst h; simp at h2
  rw [_detrend_M2, if_neg h0]
  simp only [List.length_map]
  rw [if_neg (by omega)]
  split
  · rename_i hnil
    rw [filter_fst_preserving] at hnil
    simp only [List.map_eq_nil_iff] at hnil
    rw [hnil] at h2
    simp at h2
  · rename_i hnil
    rw [filter_fst_preserving, List.map_map]
    simp only [Function.comp_def]
    rw [sum_map_snd_sub_const]
    rw [filter_fst_preserving]
    simp only [List.length_map, List.map_map, Function.comp_def]
    have hL : (((List.filter (inWindow ws we) rows).length : ℚ)) ≠ 0 := by
      have hpos : 0 < (List.filter (inWindow ws we) rows).length := by omega
      exact_mod_cast hpos.ne'
    field_simp

/-- C6 witness: `C6_recentering_amended` on the two-sample series
(0, 0), (1, 1) with window [0, 1]. -/
theorem C6_recentering_witness :
    2 ≤ (([((0:Date), (0:ℚ)), (1, 1)]).filter (inWindow 0 1)).length ∧
    (((_detrend_M2 ([((0:Date), (0:ℚ)), (1, 1)]) 0 1).filter (inWindow 0 1)).map (fun p => p.2)).sum = 0 :=
  ⟨by norm_num [inWindow], C6_recentering_amended ([((0:Date), (0:ℚ)), (1, 1)]) 0 1 (by norm_num [inWindow])⟩

/-- C7: in both implementations a station with no reference-model entry
gets no detrended values: `main` of `analysis/ts_analysis.py` stores an
all-null triple for every date of the station's series, and `main` of
`processing/ts_analysis.py` leaves all three detrend maps empty (so every
date reads the null marker) — never zero and never the raw value. -/
theorem C7_missing_model :
    (∀ (smap : List (String × StableEntry)) (sta : String) (srows : List ARow),
        smap.lookup sta = none →
        detrendDispatch smap sta srows = srows.map (fun r => (r.date, (none, none, none)))) ∧
    (∀ comp : Comp, procDetrendMaps none comp = ([], [], [])) :=
  ⟨fun smap sta srows h => by simp only [detrendDispatch, h], fun comp => rfl⟩

/-- C7 witness: `C7_missing_model` for station "PDEL" with an empty stable
map and a one-epoch series. -/
theorem C7_missing_model_witness :
    detrendDispatch [] ("PDEL") ([⟨0, some 1, some 1, some 1⟩])
        = [((0:Date), ((none:Option ℚ), (none:Option ℚ), (none:Option ℚ)))] ∧
    procDetrendMaps none ({ N := [], E := [], U := [] }) = ([], [], []) :=
  ⟨by
    have := C7_missing_model.1 [] ("PDEL") ([⟨0, some 1, some 1, some 1⟩]) (by simp [List.lookup])
    simpa using this,
   C7_missing_model.2 _⟩

/-- C8 counterexample: with a single applicable event of negative magnitude
(N = -10 at date 5, target "ALL") all applicable magnitudes share the same
sign, yet in `_compute_offsets_for_station_date` of
`processing/ts_analysis.py` cn drops from 0 at date 4 to -10 at date 6, so
cn is not monotonically non-decreasing as the claim states. -/
theorem C8_monotonicity_counterexample :
    _compute_offsets_for_station_date ([⟨"E", 5, "ALL", -10, 0, 0⟩]) ("PDEL") 4 = (0, 0, 0) ∧
    _compute_offsets_for_station_date ([⟨"E", 5, "ALL", -10, 0, 0⟩]) ("PDEL") 6 = (-10, 0, 0) ∧
    (_compute_offsets_for_station_date ([⟨"E", 5, "ALL", -10, 0, 0⟩]) ("PDEL") 6).1 <
      (_compute_offsets_for_station_date ([⟨"E", 5, "ALL", -10, 0, 0⟩]) ("PDEL") 4).1 := by
  refine ⟨?_, ?_, ?_⟩ <;> norm_num [_compute_offsets_for_station_date]

/-- C8 (amended): in `_compute_offsets_for_station_date` of
`processing/ts_analysis.py`, cn is 0 at every date strictly before the
first applicable event, and cn is monotonically non-decreasing in date
whenever all applicable event N magnitudes are non-negative (symmetrically
it is non-increasing when they are all non-positive, so sign-sharing alone
does not give the non-decreasing direction claimed). -/
theorem C8_monotonicity_amended :
    (∀ (evs : List PEvent) (sta : String) (d : Date),
        (∀ e ∈ evs, (e.station = "ALL" ∨ e.station = sta) → d < e.date) →
        _compute_offsets_for_station_date evs sta d = (0, 0, 0)) ∧
    (∀ (evs : List PEvent) (sta : String),
        (∀ e ∈ evs, (e.station = "ALL" ∨ e.station = sta) → 0 ≤ e.N) →
        ∀ d d' : Date, d ≤ d' →
          (_compute_offsets_for_station_date evs sta d).1 ≤
            (_compute_offsets_for_station_date evs sta d').1) := by
  constructor
  · intro evs sta d h
    rw [compute_offsets_eq_sum]
    refine Prod.ext ?_ (Prod.ext ?_ ?_) <;> simp <;>
      · refine List.sum_eq_zero fun x hx => ?_
        obtain ⟨e, he, rfl⟩ := List.mem_map.1 hx
        rw [if_neg]
        rintro ⟨hle, hmatch⟩
        exact absurd hle (not_le.2 (h e he hmatch))
  · intro evs sta h d d' hdd
    rw [compute_offsets_eq_sum, compute_offsets_eq_sum]
    simp only
    refine List.sum_le_sum fun e he => ?_
    by_cases hc : e.date ≤ d ∧ (e.station = "ALL" ∨ e.station = sta)
    · rw [if_pos hc, if_pos ⟨le_trans hc.1 hdd, hc.2⟩]
    · rw [if_neg hc]
      by_cases hc' : e.date ≤ d' ∧ (e.station = "ALL" ∨ e.station = sta)
      · rw [if_pos hc']; exact h e he hc'.2
      · rw [if_neg hc']

/-- C8 witness: `C8_monotonicity_amended` for one N = 10 event dated 4:
cn is 0 at date 1 and non-decreasing from date 5 to date 6. -/
theorem C8_monotonicity_witness :
    (_compute_offsets_for_station_date ([⟨"E", 4, "ALL", 10, 0, 0⟩]) ("PDEL") 1 = (0, 0, 0)) ∧
    ((_compute_offsets_for_station_date ([⟨"E", 4, "ALL", 10, 0, 0⟩]) ("PDEL") 5).1 ≤
      (_compute_offsets_for_station_date ([⟨"E", 4, "ALL", 10, 0, 0⟩]) ("PDEL") 6).1) :=
  ⟨C8_monotonicity_amended.1 _ _ _ (by intro e he hm; simp at he; subst he; norm_num),
   C8_monotonicity_amended.2 _ _ (by intro e he hm; simp at he; subst he; norm_num) 5 6 (by norm_num)⟩

/-- C9 counterexample: when fewer than 3 complete epochs exist,
`detrend_M2` of `analysis/ts_analysis.py` does not drop a null epoch's
date from its output — it emits the date with an all-null triple: with
complete epochs at dates 0 and 2 and a null N at date 1, date 1 is present
in the output. -/
theorem C9_joint_null_counterexample :
    (detrend_M2 ([⟨0, some 1, some 1, some 1⟩, ⟨1, none, some 1, some 1⟩, ⟨2, some 2, some 2, some 2⟩])
        none none).lookup (1 : Date) = some (none, none, none) := by
  norm_num [detrend_M2, completeRows, List.lookup, List.filterMap_cons]
  split <;> rfl

/-- C9 (amended): in `analysis/ts_analysis.py` a null raw component always
voids all three detrended components of the epoch together: `detrend_M1`
outputs an all-null triple at every epoch with any null component;
`detrend_M2` always excludes such epochs from the regression input
(`completeRows`), and when at least 3 complete epochs exist its output
dates are exactly the complete dates — with the group's dates unique, a
null epoch's date is then absent from the output (when fewer than 3
complete epochs exist, the date instead appears with an all-null
triple). -/
theorem C9_joint_null_amended :
    (∀ (rows : List ARow) (stab : StableEntry) (i : ℕ), i < rows.length →
        ((rows.getD i ⟨0, none, none, none⟩).n = none ∨
         (rows.getD i ⟨0, none, none, none⟩).e = none ∨
         (rows.getD i ⟨0, none, none, none⟩).u = none) →
        (detrend_M1 rows stab).getD i (0, (none, none, none)) =
          ((rows.getD i ⟨0, none, none, none⟩).date, (none, none, none))) ∧
    (∀ (rows : List ARow) (ref_start ref_end : Option Date),
        3 ≤ (completeRows rows).length →
        (detrend_M2 rows ref_start ref_end).map (fun p => p.1) =
          (completeRows rows).map (fun r => r.date)) ∧
    (∀ (rows : List ARow) (r : ARow), r ∈ rows →
        (r.n = none ∨ r.e = none ∨ r.u = none) →
        (rows.map (fun x => x.date)).Nodup →
        r.date ∉ (completeRows rows).map (fun x => x.date)) := by
  refine ⟨fun rows stab i hi hnull => ?_, fun rows rs re h3 => ?_, fun rows r hr hnull hnd => ?_⟩
  · cases rows with
    | nil => simp at hi
    | cons r0 rest =>
        simp only [detrend_M1]
        have hi' : i < ((r0 :: rest).map (fun r : ARow =>
            match r.n, r.e, r.u with
            | some n, some e, some u =>
                (r.date, (some (n - (stab.N / 1000 * (((r.date - r0.date : Int) : ℚ) / daysPerYear) + stab.CN / 1000)),
                          some (e - (stab.E / 1000 * (((r.date - r0.date : Int) : ℚ) / daysPerYear) + stab.CE / 1000)),
                          some (u - (stab.U / 1000 * (((r.date - r0.date : Int) : ℚ) / daysPerYear) + stab.CU / 1000))))
            | _, _, _ => (r.date, (none, none, none)))).length := by
          simpa using hi
        rw [List.getD_eq_getElem _ _ hi', List.getElem_map, List.getD_eq_getElem _ _ hi]
        rw [List.getD_eq_getElem _ _ hi] at hnull
        rcases hn : ((r0 :: rest).get ⟨i, hi⟩).n with _ | vn <;>
          rcases he : ((r0 :: rest).get ⟨i, hi⟩).e with _ | ve <;>
          rcases hu : ((r0 :: rest).get ⟨i, hi⟩).u with _ | vu <;>
          simp_all
  · have h0 : rows ≠ [] := by
      intro h; subst h; simp [completeRows] at h3
    cases rows with
    | nil => exact absurd rfl h0
    | cons r0 rest =>
        simp only [detrend_M2]
        rw [if_neg (by simp; omega)]
        split
        · simp [List.map_map, Function.comp_def]
        · simp [List.map_map, Function.comp_def]
  · intro hmem
    obtain ⟨r2, hr2, hdate⟩ := List.mem_map.1 hmem
    have hr2f := List.mem_filter.1 hr2
    have hr2rows : r2 ∈ rows := hr2f.1
    have hr2some : r2.n.isSome ∧ r2.e.isSome ∧ r2.u.isSome := by
      have := hr2f.2
      simp [Bool.and_eq_true] at this
      exact ⟨this.1.1, this.1.2, this.2⟩
    have heq : r2 = r := List.inj_on_of_nodup_map hnd hr2rows hr hdate
    subst heq
    rcases hnull with h | h | h
    · rw [h] at hr2some; simp at hr2some
    · rw [h] at hr2some; simp at hr2some
    · rw [h] at hr2some; simp at hr2some

/-- C9 witness: the three parts of `C9_joint_null_amended` at concrete
inputs — a null-N single epoch under M1, a three-complete-epoch M2 group,
and a null epoch whose date is absent from the complete rows. -/
theorem C9_joint_null_witness :
    (detrend_M1 ([⟨0, none, some 1, some 1⟩]) ({ method := "M1" })).getD 0 (0, (none, none, none))
        = ((0:Date), ((none:Option ℚ), (none:Option ℚ), (none:Option ℚ))) ∧
    (detrend_M2 ([⟨0, some 1, some 1, some 1⟩, ⟨1, some 2, some 2, some 2⟩, ⟨2, some 3, some 3, some 3⟩])
        none none).map (fun p => p.1)
      = (completeRows ([⟨0, some 1, some 1, some 1⟩, ⟨1, some 2, some 2, some 2⟩, ⟨2, some 3, some 3, some 3⟩])).map
          (fun r => r.date) ∧
    (1:Date) ∉ (completeRows ([⟨0, some 1, some 1, some 1⟩, ⟨(1:Date), none, some 1, some 1⟩])).map
        (fun x => x.date) := by
  refine ⟨?_, ?_, ?_⟩
  · have := C9_joint_null_amended.1 ([⟨0, none, some 1, some 1⟩]) ({ method := "M1" }) 0
      (by norm_num) (by simp)
    simpa using this
  · exact C9_joint_null_amended.2.1 _ none none (by norm_num [completeRows])
  · exact C9_joint_null_amended.2.2 _ (⟨(1:Date), none, some 1, some 1⟩) (by simp) (by simp)
      (by simp [List.Nodup])

/-- C10: in `detrend_M2` of `analysis/ts_analysis.py`, when fewer than 3
epochs of the group have all of N, E, U non-null, every date of the series
is mapped to an all-null detrended triple (not passed through
unchanged). -/
theorem C10_min_complete_epochs :
    ∀ (rows : List ARow) (ref_start ref_end : Option Date),
      (completeRows rows).length < 3 →
      detrend_M2 rows ref_start ref_end = rows.map (fun r => (r.date, (none, none, none))) := by
  intro rows rs re h3
  cases rows with
  | nil => simp [detrend_M2]
  | cons r0 rest =>
      simp only [detrend_M2]
      rw [if_pos (by simpa using h3)]

/-- C10 witness: `C10_min_complete_epochs` on a two-epoch group with one
null epoch (one complete epoch in total). -/
theorem C10_min_complete_epochs_witness :
    (completeRows ([⟨0, some 1, some 1, some 1⟩, ⟨1, none, some 1, some 1⟩])).length < 3 ∧
    detrend_M2 ([⟨0, some 1, some 1, some 1⟩, ⟨1, none, some 1, some 1⟩]) none none
      = [((0:Date), ((none:Option ℚ), none, none)), (1, (none, none, none))] :=
  ⟨by norm_num [completeRows],
   by
    have := C10_min_complete_epochs ([⟨0, some 1, some 1, some 1⟩, ⟨1, none, some 1, some 1⟩]) none none
      (by norm_num [completeRows])
    simpa using this⟩

end Claims
